import Mathlib

/-!
Shallow embedding of the MEV detection-and-composition engine of the
`forked-brontes` repository.

Part 1 embeds the atomic arbitrage detector
(`crates/brontes-inspect/src/atomic_backrun.rs`): the swap-count
classification heuristic `is_possible_arb`, the per-transaction pipeline
`process_swaps`, and the tree pass `process_tree`.

Part 2 embeds the Composer
(`crates/brontes-inspect/src/composer.rs`): block pre-processing,
`build_mev_header`, the dependency-table resolution (`replace_dep_filter`
and `compose_dep_filter`), `on_orchestra_resolution`, and the poll-based
future state machine.

Addresses and transaction hashes are modelled as `Nat`; exact rational
arithmetic (`malachite::Rational`) is modelled as `ℚ`; `u64` quantities are
modelled as `Nat` (no claim below depends on 64-bit overflow); Rust panics
(out-of-bounds `Vec::remove`, explicit `panic!`) are modelled by `Option`
with `none` standing for the panic.
-/

/-- Token / pool / account address (`reth_primitives::Address`). -/
abbrev Address := Nat

/-- Transaction hash (`B256` / `TxHash`). -/
abbrev TxHash := Nat

/-- Model of `NormalizedSwap`, restricted to the fields the detector reads:
`token_in.address`, `token_out.address` and `pool`. -/
structure NormalizedSwap where
  tokenIn  : Address
  tokenOut : Address
  pool     : Address
  deriving DecidableEq, Inhabited

/-- The action variants the arbitrage detector distinguishes
(`Actions` from `brontes_types::normalized_actions`): swaps, flash loans
carrying child actions, and everything else collapsed into `other`. -/
inductive Actions where
  | swap (s : NormalizedSwap)
  | flashLoan (childActions : List Actions)
  | other
  deriving Inhabited

/-- Model of `Actions::is_swap`. -/
def Actions.isSwap : Actions → Bool
  | .swap _ => true
  | _ => false

/-- Model of `Actions::is_flash_loan`. -/
def Actions.isFlashLoan : Actions → Bool
  | .flashLoan _ => true
  | _ => false

/-- Model of `Actions::force_swap`; only ever applied after filtering on `is_swap`,
so the non-swap case returns the default swap. -/
def Actions.forceSwap : Actions → NormalizedSwap
  | .swap s => s
  | _ => default

/-- The swap-extraction prefix of `process_swaps`: flatten
`searcher_actions`, keep swaps and flash loans, and flatten a flash loan
into its child swaps (`atomic_backrun.rs` lines 62-76). -/
def extractSwaps (searcherActions : List (List Actions)) : List NormalizedSwap :=
  ((searcherActions.flatten.filter fun s => s.isSwap || s.isFlashLoan).map fun s =>
    match s with
    | .swap s => [s]
    | .flashLoan f => (f.filter Actions.isSwap).map Actions.forceSwap
    | _ => []).flatten

/-- Number of distinct pool addresses among the swaps: the size of the
`address_to_tokens: HashMap<Address, Vec<Address>>` built in
`is_possible_arb` (one key per distinct `swap.pool`). -/
def poolsCount (swaps : List NormalizedSwap) : Nat :=
  (swaps.map (·.pool)).dedup.length

/-- Number of distinct token addresses touched by the swaps: the source
flattens all values of `address_to_tokens` (each swap pushes its
`token_in` and `token_out` onto its pool's entry) and counts them after
`sorted().dedup()`, i.e. the number of distinct tokens overall. -/
def uniqueTokensCount (swaps : List NormalizedSwap) : Nat :=
  (swaps.flatMap fun s => [s.tokenIn, s.tokenOut]).dedup.length

/-- Embedding of `is_possible_arb` (`atomic_backrun.rs` lines 120-160). `some ()`
means the candidate passes the heuristic, `none` means it is rejected.
The source branches on `swaps.len() <= 1`, `== 2`, else; here the same
three cases are split by matching on the list. The two-swap condition is
transcribed literally from line 133 of the source, including the
`start == end && mid == mid1 || (start != end || mid != mid1)`
disjunction. -/
def isPossibleArb (swaps : List NormalizedSwap) : Option Unit :=
  match swaps with
  | [] => none
  | [_] => none
  | [s0, s1] =>
    let start := s0.tokenIn
    let mid := s0.tokenOut
    let mid1 := s1.tokenIn
    let endTok := s1.tokenOut
    if (!((start == endTok && mid == mid1) || (start != endTok || mid != mid1))
        || start == mid) then
      none
    else
      some ()
  | swaps =>
    let pools := poolsCount swaps
    let uniqueTokens := uniqueTokensCount swaps
    if uniqueTokens < pools ∧ uniqueTokens ≤ 3 then none else some ()

example : isPossibleArb [] = none := by decide
example : isPossibleArb [⟨0, 1, 9⟩] = none := by decide
-- two swaps, no cycle at all (start=0, mid=1, mid1=2, end=3): accepted by the code
example : isPossibleArb [⟨0, 1, 9⟩, ⟨2, 3, 8⟩] = some () := by decide
-- degenerate start == mid: rejected
example : isPossibleArb [⟨0, 0, 9⟩, ⟨0, 0, 8⟩] = none := by decide
-- 3 swaps, 2 pools, 2 unique tokens: passes the heuristic
example : isPossibleArb [⟨0, 1, 9⟩, ⟨1, 0, 8⟩, ⟨0, 1, 9⟩] = some () := by decide
-- 3 swaps, 3 pools, 2 unique tokens: rejected
example : isPossibleArb [⟨0, 1, 9⟩, ⟨1, 0, 8⟩, ⟨0, 1, 7⟩] = none := by decide

/-- Model of `GasDetails` as read by the detector; only carried through `TxInfo`. -/
structure GasDetails where
  gasUsed           : Nat
  effectiveGasPrice : Nat
  deriving DecidableEq, Inhabited

/-- Model of `TxInfo` (`brontes-types/src/tree/tx_info.rs`), restricted to the
fields `process_swaps` reads. -/
structure TxInfo where
  txIndex    : Nat
  txHash     : TxHash
  gasDetails : GasDetails
  deriving DecidableEq, Inhabited

/-- Model of `BundleHeader` as produced for the detector. Modelled from the spec:
`shared_utils::SharedInspectorUtils::build_bundle_header` is not among the
provided sources; per spec section 6 (`build_header(tx_info, profit,
actions, gas, metadata, mev_type) -> BundleHeader`) and section 3, the
header records the mev type and the USD profit it is handed. `profitUsd`
holds the value of the `f64` profit argument, produced in the source by
`ToFloatNearest` from the exact rational; the conversion itself is kept
abstract as the `toFloat` parameter of `processSwaps`. -/
structure BundleHeader where
  mevTypeIsBackrun : Bool
  profitUsd        : ℚ
  deriving DecidableEq, Inhabited

/-- A detector `Bundle`: header plus the `AtomicBackrun` payload
(the swap list attached at `atomic_backrun.rs` lines 108-117). -/
structure ABundle where
  header : BundleHeader
  swaps  : List NormalizedSwap
  deriving DecidableEq, Inhabited

/-- The gross-revenue fold of `process_swaps` (lines 86-88): sum of the
USD deltas returned by `usd_delta_by_address`. -/
def revUsdOf (deltas : List (Address × ℚ)) : ℚ :=
  (deltas.map (·.2)).foldl (· + ·) 0

/-- Embedding of `process_swaps` (`atomic_backrun.rs` lines 56-118). External
collaborators are passed in as parameters:
* `toFloat` models `Rational::to_float` (`ToFloatNearest`);
* `usdDeltas` models the result of
  `usd_delta_by_address(info.tx_index, &deltas, metadata, false)`,
  an optional map from address to exact-rational USD delta;
* `gasUsedUsd` models
  `info.metadata.get_gas_price_usd(gas_details.gas_paid())`.
The pipeline: extract the flattened swaps, run `is_possible_arb`, require
the USD deltas to exist, sum them into `rev_usd`, reject unless
`rev_usd - gas_used_usd > 0`, and otherwise build the backrun bundle whose
header profit is `to_float(rev_usd - gas_used_usd)` and whose payload is
the swap actions of `searcher_actions` (flash-loan children are not
re-flattened for the payload, exactly as in the source). -/
def processSwaps (toFloat : ℚ → ℚ) (usdDeltas : Option (List (Address × ℚ)))
    (gasUsedUsd : ℚ) (_info : TxInfo)
    (searcherActions : List (List Actions)) : Option ABundle :=
  let swaps := extractSwaps searcherActions
  (isPossibleArb swaps).bind fun _ =>
  usdDeltas.bind fun deltas =>
  let revUsd : ℚ := revUsdOf deltas
  if revUsd - gasUsedUsd ≤ 0 then
    none
  else
    let header : BundleHeader :=
      { mevTypeIsBackrun := true, profitUsd := toFloat (revUsd - gasUsedUsd) }
    let payloadSwaps :=
      (searcherActions.flatten.filter Actions.isSwap).map Actions.forceSwap
    some { header := header, swaps := payloadSwaps }

/-- Embedding of `process_tree` (`atomic_backrun.rs` lines 30-52). The tree is
abstracted to the result of `tree.collect_all` (a list of
`(tx_hash, matched actions)` pairs) and the lookup `tree.get_tx_info`;
the per-transaction valuation collaborators are per-`TxInfo` functions.
A transaction whose `get_tx_info` lookup yields `none` is dropped by the
`filter_map` (the `?` on line 47), and transactions whose `process_swaps`
yields `none` contribute nothing. -/
def processTree (getTxInfo : TxHash → Option TxInfo)
    (toFloat : ℚ → ℚ) (usdDeltasOf : TxInfo → Option (List (Address × ℚ)))
    (gasUsedUsdOf : TxInfo → ℚ)
    (collected : List (TxHash × List Actions)) : List ABundle :=
  collected.filterMap fun (tx, swaps) =>
    (getTxInfo tx).bind fun info =>
      processSwaps toFloat (usdDeltasOf info) (gasUsedUsdOf info) info [swaps]

/-!
Part 2: the Composer (`crates/brontes-inspect/src/composer.rs`).
-/

/-- Model of `MevType` restricted to the tags the composer's dependency table
mentions. -/
inductive MevType where
  | backrun
  | cexDex
  | sandwich
  | jit
  | jitSandwich
  deriving DecidableEq, Inhabited

/-- Enumeration of all `MevType` tags, used to flatten a grouping map
(`sorted_mev.into_values().flatten()`; the `HashMap` iteration order is
unspecified in the source, and no claim below depends on the order of the
flattened list, only on its members and length). -/
def mevTypesList : List MevType :=
  [.backrun, .cexDex, .sandwich, .jit, .jitSandwich]

/-- One `(ClassifiedMev, Box<dyn SpecificMev>)` pair, collapsed to the
fields the composer reads: the grouping tag `classified_mev.mev_type`,
and the `SpecificMev` accessors `mev_transaction_hashes()`,
`priority_fee_paid()` and `bribe()`. -/
structure CBundle where
  mevType         : MevType
  txHashes        : List TxHash
  priorityFeePaid : Nat
  bribe           : Nat
  deriving DecidableEq, Inhabited

/-- A grouping of bundles by mev type
(`HashMap<MevType, Vec<(ClassifiedMev, Box<dyn SpecificMev>)>>`),
modelled as a total function with empty default (an absent key and a key
holding an empty vector behave identically everywhere in the source). -/
abbrev SortedMev := MevType → List CBundle

/-- Point update of a grouping map. -/
def setGroup (m : SortedMev) (k : MevType) (v : List CBundle) : SortedMev :=
  fun t => if t = k then v else m t

/-- The grouping fold of `on_orchestra_resolution` (lines 229-239):
push each bundle onto its `mev_type` entry, preserving input order within
each group. -/
def groupByMevType (data : List CBundle) : SortedMev :=
  data.foldl (fun acc b => setGroup acc b.mevType (acc b.mevType ++ [b])) (fun _ => [])

/-- All bundles of a grouping, one canonical type order
(`sorted_mev.into_values().flatten()` up to the unspecified `HashMap`
order). -/
def allBundles (m : SortedMev) : List CBundle :=
  (mevTypesList.map m).flatten

/-- Model of `Metadata` restricted to the fields `build_mev_header` reads; the
exact-rational ETH price stays a `ℚ`. -/
structure Metadata where
  blockHash            : Nat
  blockNum             : Nat
  ethPrices            : ℚ
  proposerFeeRecipient : Address
  proposerMevReward    : Nat
  deriving DecidableEq, Inhabited

/-- Model of `BlockPreprocessing` (composer.rs lines 83-88). -/
structure BlockPreprocessing where
  metaData          : Metadata
  cumulativeGasUsed : Nat
  cumulativeGasPaid : Nat
  builderAddress    : Address
  deriving DecidableEq, Inhabited

/-- One transaction root's gas details, as read by `pre_process`. -/
structure RootGas where
  gasUsed           : Nat
  effectiveGasPrice : Nat
  deriving DecidableEq, Inhabited

/-- Embedding of `pre_process` (composer.rs lines 143-163): sums `gas_used` and
`effective_gas_price * gas_used` over the tree's transaction roots. -/
def preProcess (roots : List RootGas) (builderAddress : Address)
    (metaData : Metadata) : BlockPreprocessing :=
  { metaData := metaData
    cumulativeGasUsed := (roots.map (·.gasUsed)).sum
    cumulativeGasPaid := (roots.map fun r => r.effectiveGasPrice * r.gasUsed).sum
    builderAddress := builderAddress }

/-- Model of `u64::to_scaled_rational(18)`: the native-unit value as an exact
rational number of ETH. -/
def toScaledRational (n : Nat) : ℚ := (n : ℚ) / 10 ^ 18

/-- Model of `MevBlock` restricted to the fields `build_mev_header` fills. The
three `*_usd` fields hold the exact rational that the source hands to
`f64::rounding_from(..., RoundingMode::Nearest)`; the final
rational-to-`f64` rounding is a postcomposed output conversion not
modelled here. -/
structure MevBlock where
  blockHash                       : Nat
  blockNumber                     : Nat
  mevCount                        : Nat
  finalizedEthPrice               : ℚ
  cumulativeGasUsed               : Nat
  cumulativeGasPaid               : Nat
  totalBribe                      : Nat
  cumulativeMevPriorityFeePaid    : Nat
  builderAddress                  : Address
  builderEthProfit                : Nat
  builderFinalizedProfitUsd       : ℚ
  proposerFeeRecipient            : Address
  proposerMevReward               : Nat
  proposerFinalizedProfitUsd      : ℚ
  cumulativeMevFinalizedProfitUsd : ℚ
  deriving DecidableEq, Inhabited

/-- Embedding of `build_mev_header` (composer.rs lines 165-220), applied to the
pre-processing data and the bundle list it is handed
(`orchestra_data`). Note the literal `let total_bribe = 0;` on line 175:
the builder profit is `0 + cumulative_gas_paid`, while the `total_bribe`
field of the output separately sums `mev.bribe()`. -/
def buildMevHeader (pre : BlockPreprocessing) (orchestraData : List CBundle) :
    MevBlock :=
  let cumMevPriorityFeePaid := (orchestraData.map (·.priorityFeePaid)).sum
  let totalBribe := 0
  let builderEthProfit := totalBribe + pre.cumulativeGasPaid
  { blockHash := pre.metaData.blockHash
    blockNumber := pre.metaData.blockNum
    mevCount := orchestraData.length
    finalizedEthPrice := pre.metaData.ethPrices
    cumulativeGasUsed := pre.cumulativeGasUsed
    cumulativeGasPaid := pre.cumulativeGasPaid
    totalBribe := (orchestraData.map (·.bribe)).sum
    cumulativeMevPriorityFeePaid := cumMevPriorityFeePaid
    builderAddress := pre.builderAddress
    builderEthProfit := builderEthProfit
    builderFinalizedProfitUsd :=
      toScaledRational builderEthProfit * pre.metaData.ethPrices
    proposerFeeRecipient := pre.metaData.proposerFeeRecipient
    proposerMevReward := pre.metaData.proposerMevReward
    proposerFinalizedProfitUsd :=
      toScaledRational pre.metaData.proposerMevReward * pre.metaData.ethPrices
    cumulativeMevFinalizedProfitUsd :=
      toScaledRational cumMevPriorityFeePaid * pre.metaData.ethPrices }

/-- The per-dependency-bundle body of the index-collection loop of
`replace_dep_filter` (composer.rs lines 279-297): given the head's hash
list, the running `remove_count` offsets and the accumulated
`(MevType, index)` removal list, process the dependency bundle at
position `i`. The exact-equality branch schedules index `i - adjustment`
(as written on line 284; an offset exceeding `i` underflows the `usize`
subtraction, modelled here by computing in `ℤ`), the partial-overlap
branch schedules index `i + adjustment` (line 294). -/
def replaceScanOne (hashes : List TxHash) (dep : MevType)
    (st : List (MevType × ℤ) × (MevType → Nat)) (i : Nat) (db : CBundle) :
    List (MevType × ℤ) × (MevType → Nat) :=
  let (removeData, removeCount) := st
  let depHashes := db.txHashes
  if depHashes == hashes then
    let adjustment := removeCount dep
    (removeData ++ [(dep, (i : ℤ) - (adjustment : ℤ))],
     fun t => if t = dep then adjustment + 1 else removeCount t)
  else if depHashes.any fun hash => hashes.contains hash then
    let adjustment := removeCount dep
    (removeData ++ [(dep, (i : ℤ) + (adjustment : ℤ))],
     fun t => if t = dep then adjustment + 1 else removeCount t)
  else
    st

/-- Fold `replaceScanOne` over an enumerated dependency group. -/
def replaceScanGroup (hashes : List TxHash) (dep : MevType)
    (depMev : List CBundle) (st : List (MevType × ℤ) × (MevType → Nat)) :
    List (MevType × ℤ) × (MevType → Nat) :=
  (depMev.enum).foldl (fun st (i, db) => replaceScanOne hashes dep st i db) st

/-- Model of `Vec::remove(index)` on the `mev_type` group of the map: panics
(`none`) when the index is out of bounds, which also covers a wrapped
`usize` underflow from the `i - adjustment` computation. -/
def removeAtIdx (m : SortedMev) (t : MevType) (idx : ℤ) : Option SortedMev :=
  if 0 ≤ idx ∧ idx.toNat < (m t).length then
    some (setGroup m t ((m t).eraseIdx idx.toNat))
  else
    none

/-- Embedding of `replace_dep_filter` (composer.rs lines 262-307). The first phase
collects `(mev_type, index)` removal requests over every head bundle and
every dependency group, threading one shared `remove_count` offset map
through the whole scan (it is declared once, outside the `flat_map`, in
the source); the second phase performs the `Vec::remove` calls in order.
`none` models a panicking `remove`. -/
def replaceDepFilter (headMevType : MevType) (deps : List MevType)
    (sortedMev : SortedMev) : Option SortedMev :=
  let headMev := sortedMev headMevType
  let scanned :=
    headMev.foldl
      (fun st hb =>
        deps.foldl
          (fun st dep => replaceScanGroup hb.txHashes dep (sortedMev dep) st)
          st)
      ([], fun _ => 0)
  scanned.1.foldlM (fun m (t, idx) => removeAtIdx m t idx) sortedMev

/-- The match predicate of `compose_dep_filter` (composer.rs line 337):
the candidate's hash list equals the zero-bundle's, or some hash of the
zero-bundle occurs in the candidate's. -/
def matchHashes (addresses : List TxHash) (candidate : CBundle) : Bool :=
  candidate.txHashes == addresses
    || addresses.any fun a => candidate.txHashes.contains a

/-- Model of `iter().enumerate().find(...)` over a group with `matchHashes`:
the first matching index together with the bundle found there. -/
def findFirstMatch (addresses : List TxHash) : List CBundle → Option (Nat × CBundle)
  | [] => none
  | c :: rest =>
    if matchHashes addresses c then
      some (0, c)
    else
      (findFirstMatch addresses rest).map fun p => (p.1 + 1, p.2)

/-- The loop body of `compose_dep_filter` (composer.rs lines 331-362) for
one bundle of `composable_types[0]`: look for the first match in the
`composable_types[1]` group; on a match remove it there and push the
composed bundle onto the `parent_mev_type` group, otherwise push the
zero-bundle back onto the `composable_types[0]` group. -/
def composeStep (parent t0 t1 : MevType) (compose : CBundle → CBundle → CBundle)
    (m : SortedMev) (b : CBundle) : SortedMev :=
  match findFirstMatch b.txHashes (m t1) with
  | some (index, c) =>
    let m1 := setGroup m t1 ((m t1).eraseIdx index)
    setGroup m1 parent (m1 parent ++ [compose b c])
  | none => setGroup m t0 (m t0 ++ [b])

/-- Embedding of `compose_dep_filter` (composer.rs lines 309-363). The source first
panics unless `composable_types.len() == 2` (line 325-327), modelled by
`none`; it then takes the whole `composable_types[0]` group out of the map
(`sorted_mev.remove`) and folds the loop body over it. -/
def composeDepFilter (parentMevType : MevType) (composableTypes : List MevType)
    (compose : CBundle → CBundle → CBundle) (sortedMev : SortedMev) :
    Option SortedMev :=
  match composableTypes with
  | [t0, t1] =>
    let zeroTxes := sortedMev t0
    some (zeroTxes.foldl (composeStep parentMevType t0 t1 compose)
      (setGroup sortedMev t0 []))
  | _ => none

/-- One dependency-table entry: `(MevType, ComposeFunction, Vec<MevType>)`. -/
abbrev MevFilterEntry := MevType × Option (CBundle → CBundle → CBundle) × List MevType

/-- The `MEV_FILTER` table produced by the `mev_composability!` macro
(composer.rs lines 61-66) with `get_compose_fn` (lines 70-75):
`Sandwich => Backrun, CexDex` carries no compose function,
`JitSandwich => Sandwich, Jit` carries `compose_sandwich_jit`, whose body
lives outside the provided sources and is therefore a parameter. -/
def mevFilter (composeSandwichJit : CBundle → CBundle → CBundle) :
    List MevFilterEntry :=
  [(.sandwich, none, [.backrun, .cexDex]),
   (.jitSandwich, some composeSandwichJit, [.sandwich, .jit])]

/-- The dependency-resolution loop of `on_orchestra_resolution`
(composer.rs lines 241-254): fold the table entries in declared order,
dispatching on the presence of a compose function; `none` propagates a
panic from either filter. -/
def resolveFilters (table : List MevFilterEntry) (sortedMev : SortedMev) :
    Option SortedMev :=
  table.foldlM
    (fun m (entry : MevFilterEntry) =>
      match entry with
      | (headMevType, some composeFn, dependencies) =>
        composeDepFilter headMevType dependencies composeFn m
      | (headMevType, none, dependencies) =>
        replaceDepFilter headMevType dependencies m)
    sortedMev

/-- Embedding of `on_orchestra_resolution` (composer.rs lines 222-260): build the
header from the incoming `orchestra_data`, group the data by mev type,
run the dependency table, and return the header with the flattened
remaining bundles. -/
def onOrchestraResolution (table : List MevFilterEntry)
    (pre : BlockPreprocessing) (orchestraData : List CBundle) :
    Option (MevBlock × List CBundle) :=
  let header := buildMevHeader pre orchestraData
  let sortedMev := groupByMevType orchestraData
  (resolveFilters table sortedMev).map fun m => (header, allBundles m)

/-- Result of one poll of the inner inspector-collection future
(`inspectors_execution`): `Poll::Pending` or `Poll::Ready(data)` carrying
the flattened inspector output. -/
inductive InnerPoll (α : Type) where
  | pending
  | ready (data : α)

/-- The composer's poll-relevant state (`composer.rs` lines 98-105):
whether `inspectors_execution` is `Some` and the `is_finished` flag.
`on_new_tree` establishes `{ hasExecution := true, isFinished := false }`. -/
structure ComposerPollState where
  hasExecution : Bool
  isFinished   : Bool
  deriving DecidableEq, Inhabited

/-- Embedding of `<Composer as Future>::poll` (composer.rs lines 366-381) together
with the `is_finished = true` assignment of `on_orchestra_resolution`
(line 256): the execution future is `take`n; when absent the poll returns
`Pending`; when present and the inner future is `Pending` it is put back;
when present and the inner future is `Ready(data)` the composer resolves
(abstracted to `resolve`), marks itself finished and returns
`Poll::Ready` — the taken execution future is never restored. -/
def pollComposer {α β : Type} (resolve : α → β) (s : ComposerPollState)
    (inner : InnerPoll α) : ComposerPollState × Option β :=
  if s.hasExecution then
    match inner with
    | .ready data =>
      ({ hasExecution := false, isFinished := true }, some (resolve data))
    | .pending => (s, none)
  else
    (s, none)

/-- Repeated polling of the composer against a trace of inner-future
poll outcomes, collecting every poll's output. -/
def runComposer {α β : Type} (resolve : α → β) :
    ComposerPollState → List (InnerPoll α) → ComposerPollState × List (Option β)
  | s, [] => (s, [])
  | s, p :: ps =>
    let step := pollComposer resolve s p
    let rest := runComposer resolve step.1 ps
    (rest.1, step.2 :: rest.2)

-- sanity: the full composer pipeline on a sandwich+jit pair sharing a hash
example :
    (onOrchestraResolution
        (mevFilter fun a b =>
          { mevType := .jitSandwich, txHashes := a.txHashes,
            priorityFeePaid := a.priorityFeePaid + b.priorityFeePaid,
            bribe := a.bribe + b.bribe })
        (preProcess [⟨21000, 10⟩, ⟨50000, 20⟩] 5 ⟨1, 2, 0, 3, 4⟩)
        [⟨.sandwich, [7], 10, 1⟩, ⟨.jit, [7], 20, 2⟩]).map
      (fun r => (r.1.mevCount, r.2.length)) = some (2, 1) := by
  decide

-- sanity: two partial-overlap dependency bundles drive the second removal
-- index out of bounds
example :
    (replaceDepFilter .sandwich [.backrun, .cexDex]
      (groupByMevType
        [⟨.sandwich, [1, 2], 0, 0⟩, ⟨.backrun, [1], 0, 0⟩, ⟨.backrun, [2], 0, 0⟩])).isNone
      = true := by
  decide

-- sanity: a single exact-equality subsumption works and removes the backrun
example :
    (replaceDepFilter .sandwich [.backrun, .cexDex]
      (groupByMevType
        [⟨.sandwich, [1, 2], 0, 0⟩, ⟨.backrun, [1, 2], 0, 0⟩])).map allBundles
      = some [⟨.sandwich, [1, 2], 0, 0⟩] := by
  decide

/-- A concrete stand-in for the external `compose_sandwich_jit` compose
function, used when the composer pipeline is evaluated on concrete
inputs. -/
def composeJoin (a b : CBundle) : CBundle :=
  { mevType := .jitSandwich
    txHashes := a.txHashes ++ b.txHashes
    priorityFeePaid := a.priorityFeePaid + b.priorityFeePaid
    bribe := a.bribe + b.bribe }

/-!
Theorems settling the claims.
-/

/-- The two-swap acceptance condition of `is_possible_arb` line 133: the
inner disjunction `(start == end && mid == mid1) || (start != end || mid != mid1)`
is a tautology, so the whole test reduces to `start == mid`. -/
theorem twoSwapCondReduces (a b c d : Nat) :
    (!((a == d && b == c) || (a != d || b != c)) || a == b) = (a == b) := by
  cases h1 : a == d <;> cases h2 : b == c <;> simp [h1, h2] <;>
    first
      | (intro had _; exact absurd had (by simpa using h1))
      | (intro _ hbc; exact absurd hbc (by simpa using h2))

/-- Claim C1 (corrected): with exactly two swaps, the source accepts
whenever `start ≠ mid` — the start/end and mid/mid1 equality tests impose
no constraint. At `swap0 = (0→1)` and `swap1 = (2→3)` the detector
accepts even though `start = 0 ≠ 3 = end`, refuting the claimed
"accept iff `start == end` and `mid == mid1` and `start != mid`". -/
theorem twoSwapClaimCounterexample :
    ¬ (isPossibleArb [⟨0, 1, 9⟩, ⟨2, 3, 8⟩] = some () ↔
        ((0 : Nat) = 3 ∧ (1 : Nat) = 2 ∧ (0 : Nat) ≠ 1)) := by
  decide

/-- Claim C1 (amended): a flattened sequence of 0 or 1 swaps yields no
detection, and a sequence of exactly 2 swaps is accepted by
`is_possible_arb` if and only if the first swap's input and output token
addresses differ (`start ≠ mid`); the `start == end`/`mid == mid1`
comparisons of the source are vacuous. -/
theorem isPossibleArbSwapCountAmended :
    (∀ swaps : List NormalizedSwap, swaps.length ≤ 1 → isPossibleArb swaps = none)
    ∧ ∀ s0 s1 : NormalizedSwap,
        (isPossibleArb [s0, s1] = some () ↔ s0.tokenIn ≠ s0.tokenOut) := by
  constructor
  · intro swaps h
    match swaps with
    | [] => rfl
    | [_] => rfl
    | _ :: _ :: _ => simp at h
  · intro s0 s1
    show (if (!((s0.tokenIn == s1.tokenOut && s0.tokenOut == s1.tokenIn)
          || (s0.tokenIn != s1.tokenOut || s0.tokenOut != s1.tokenIn))
          || s0.tokenIn == s0.tokenOut) = true then none else some ()) = some ()
        ↔ s0.tokenIn ≠ s0.tokenOut
    rw [twoSwapCondReduces]
    by_cases h : s0.tokenIn = s0.tokenOut <;> simp [h]

/-- Witness for the amended claim C1 at concrete inputs. -/
theorem isPossibleArbSwapCountAmendedWitness :
    isPossibleArb [⟨4, 4, 9⟩] = none
    ∧ (isPossibleArb [⟨0, 1, 9⟩, ⟨1, 0, 8⟩] = some () ↔ (0 : Nat) ≠ 1) :=
  ⟨isPossibleArbSwapCountAmended.1 [⟨4, 4, 9⟩] (by decide),
   isPossibleArbSwapCountAmended.2 ⟨0, 1, 9⟩ ⟨1, 0, 8⟩⟩

/-- Claim C5 (confirmed): with more than 2 swaps, `is_possible_arb`
rejects exactly when the number of distinct tokens touched is strictly
smaller than the number of distinct pools and at most 3, with the counts
expressed as the claimed set cardinalities. -/
theorem isPossibleArbHeuristicMultiSwap (swaps : List NormalizedSwap)
    (h : 2 < swaps.length) :
    isPossibleArb swaps = none ↔
      (swaps.flatMap fun s => [s.tokenIn, s.tokenOut]).toFinset.card
          < (swaps.map (·.pool)).toFinset.card
        ∧ (swaps.flatMap fun s => [s.tokenIn, s.tokenOut]).toFinset.card ≤ 3 := by
  match swaps, h with
  | a :: b :: c :: rest, _ =>
    show (if uniqueTokensCount (a :: b :: c :: rest) < poolsCount (a :: b :: c :: rest)
          ∧ uniqueTokensCount (a :: b :: c :: rest) ≤ 3 then none else some ())
        = none ↔ _
    rw [poolsCount, uniqueTokensCount, ← List.card_toFinset, ← List.card_toFinset]
    split_ifs with hcond
    · simpa using hcond
    · simpa using hcond

/-- Witness for claim C5: three swaps across 2 pools touching 2 unique
tokens pass the heuristic (the rejection condition is not met). -/
theorem isPossibleArbHeuristicMultiSwapWitness :
    2 < ([⟨0, 1, 9⟩, ⟨1, 0, 8⟩, ⟨0, 1, 9⟩] : List NormalizedSwap).length
    ∧ (isPossibleArb [⟨0, 1, 9⟩, ⟨1, 0, 8⟩, ⟨0, 1, 9⟩] = none ↔
        (([⟨0, 1, 9⟩, ⟨1, 0, 8⟩, ⟨0, 1, 9⟩] : List NormalizedSwap).flatMap
            fun s => [s.tokenIn, s.tokenOut]).toFinset.card
            < (([⟨0, 1, 9⟩, ⟨1, 0, 8⟩, ⟨0, 1, 9⟩] : List NormalizedSwap).map
                (·.pool)).toFinset.card
          ∧ (([⟨0, 1, 9⟩, ⟨1, 0, 8⟩, ⟨0, 1, 9⟩] : List NormalizedSwap).flatMap
              fun s => [s.tokenIn, s.tokenOut]).toFinset.card ≤ 3) :=
  ⟨by decide, isPossibleArbHeuristicMultiSwap [⟨0, 1, 9⟩, ⟨1, 0, 8⟩, ⟨0, 1, 9⟩] (by decide)⟩

/-- Claim C6 (confirmed): for a candidate that passes the cycle heuristic
and has USD deltas available, `process_swaps` produces a bundle if and
only if `rev_usd - gas_usd > 0` (exact rational comparison); on success
the header is the Backrun header whose profit is the float image of the
exact difference, and a non-positive difference yields `none` (no error:
the function is `Option`-valued by type). -/
theorem processSwapsProfitGate (toFloat : ℚ → ℚ) (deltas : List (Address × ℚ))
    (gasUsedUsd : ℚ) (info : TxInfo) (acts : List (List Actions))
    (hArb : isPossibleArb (extractSwaps acts) = some ()) :
    (revUsdOf deltas - gasUsedUsd ≤ 0 →
      processSwaps toFloat (some deltas) gasUsedUsd info acts = none)
    ∧ (0 < revUsdOf deltas - gasUsedUsd →
      processSwaps toFloat (some deltas) gasUsedUsd info acts =
        some { header := { mevTypeIsBackrun := true,
                           profitUsd := toFloat (revUsdOf deltas - gasUsedUsd) }
               swaps := (acts.flatten.filter Actions.isSwap).map Actions.forceSwap }) := by
  constructor
  · intro hle
    simp only [processSwaps, hArb, Option.bind_some, Option.some_bind]
    rw [if_pos hle]
  · intro hgt
    simp only [processSwaps, hArb, Option.bind_some, Option.some_bind]
    rw [if_neg (by linarith)]

/-- Witness for claim C6: revenue 100 against gas 40 yields the bundle
with profit 60, revenue 30 against gas 40 yields no bundle. -/
theorem processSwapsProfitGateWitness :
    (0 : ℚ) < revUsdOf [(0, 100)] - 40
    ∧ processSwaps id (some [(0, 100)]) 40 default
        [[Actions.swap ⟨0, 1, 9⟩, Actions.swap ⟨1, 0, 8⟩]] =
        some { header := { mevTypeIsBackrun := true,
                           profitUsd := id (revUsdOf [(0, 100)] - 40) }
               swaps := [⟨0, 1, 9⟩, ⟨1, 0, 8⟩] }
    ∧ revUsdOf [(0, 30)] - 40 ≤ 0
    ∧ processSwaps id (some [(0, 30)]) 40 default
        [[Actions.swap ⟨0, 1, 9⟩, Actions.swap ⟨1, 0, 8⟩]] = none := by
  refine ⟨by norm_num [revUsdOf], ?_, by norm_num [revUsdOf], ?_⟩
  · exact (processSwapsProfitGate id [(0, 100)] 40 default
      [[Actions.swap ⟨0, 1, 9⟩, Actions.swap ⟨1, 0, 8⟩]] (by decide)).2
      (by norm_num [revUsdOf])
  · exact (processSwapsProfitGate id [(0, 30)] 40 default
      [[Actions.swap ⟨0, 1, 9⟩, Actions.swap ⟨1, 0, 8⟩]] (by decide)).1
      (by norm_num [revUsdOf])

/-- Lemma: a `filterMap` whose body first binds an optional lookup ignores the
elements where the lookup is empty. -/
theorem filterMapBindFilter {α β γ : Type} (g : α → Option β)
    (f : α → β → Option γ) (l : List α) :
    l.filterMap (fun a => (g a).bind (f a))
      = (l.filter fun a => (g a).isSome).filterMap (fun a => (g a).bind (f a)) := by
  induction l with
  | nil => rfl
  | cons a l ih =>
    cases hg : g a with
    | none => simp [List.filterMap_cons, List.filter_cons, hg, ih]
    | some x => simp [List.filterMap_cons, List.filter_cons, hg, ih]

/-- Claim C8 (confirmed): the detector's tree pass drops every collected
transaction whose `get_tx_info` lookup yields nothing (so its result only
depends on the transactions with info), and when no transaction yields a
detection the result is the empty list; `processTree` is `List`-valued by
type, so no failure can be raised. -/
theorem processTreeSkipsMissingInfo (getTxInfo : TxHash → Option TxInfo)
    (toFloat : ℚ → ℚ) (usdDeltasOf : TxInfo → Option (List (Address × ℚ)))
    (gasUsedUsdOf : TxInfo → ℚ) (collected : List (TxHash × List Actions)) :
    processTree getTxInfo toFloat usdDeltasOf gasUsedUsdOf collected
      = processTree getTxInfo toFloat usdDeltasOf gasUsedUsdOf
          (collected.filter fun e => (getTxInfo e.1).isSome)
    ∧ ((∀ e ∈ collected, ∀ info, getTxInfo e.1 = some info →
          processSwaps toFloat (usdDeltasOf info) (gasUsedUsdOf info) info [e.2] = none) →
        processTree getTxInfo toFloat usdDeltasOf gasUsedUsdOf collected = []) := by
  constructor
  · exact filterMapBindFilter (fun e => getTxInfo e.1)
      (fun e info => processSwaps toFloat (usdDeltasOf info) (gasUsedUsdOf info) info [e.2])
      collected
  · induction collected with
    | nil => intro _; rfl
    | cons e rest ih =>
      intro hnone
      obtain ⟨tx, sw⟩ := e
      have hrest := ih fun e he info hg => hnone e (List.mem_cons_of_mem _ he) info hg
      cases hg : getTxInfo tx with
      | none => simpa [processTree, List.filterMap_cons, hg] using hrest
      | some info =>
        have hps := hnone (tx, sw) (List.mem_cons_self _ _) info hg
        simpa [processTree, List.filterMap_cons, hg, hps] using hrest

/-- Witness for claim C8: a collected transaction with no tx-info is
skipped and the overall result is empty. -/
theorem processTreeSkipsMissingInfoWitness :
    processTree (fun _ => none) id (fun _ => none) (fun _ => 0) [(5, [])]
        = processTree (fun _ => none) id (fun _ => none) (fun _ => 0)
            (([(5, [])] : List (TxHash × List Actions)).filter
              fun e => ((fun _ => none : TxHash → Option TxInfo) e.1).isSome)
    ∧ processTree (fun _ => none) id (fun _ => none) (fun _ => 0) [(5, [])] = [] :=
  ⟨(processTreeSkipsMissingInfo (fun _ => none) id (fun _ => none) (fun _ => 0)
      [(5, [])]).1,
   (processTreeSkipsMissingInfo (fun _ => none) id (fun _ => none) (fun _ => 0)
      [(5, [])]).2 (fun _ _ _ hg => by exact absurd hg (by simp))⟩

/-- Claim C2 (corrected): at a Sandwich bundle and a Jit bundle sharing
transaction hash 7, the dependency table composes them into a single
JitSandwich bundle, so one bundle remains after resolution — yet the
header reports `mev_count = 2`: the header is not built from the
post-resolution groups. -/
theorem headerBeforeResolutionCounterexample :
    (onOrchestraResolution (mevFilter composeJoin)
        (preProcess [⟨21000, 10⟩, ⟨50000, 20⟩] 5 ⟨1, 2, 0, 3, 4⟩)
        [⟨.sandwich, [7], 10, 1⟩, ⟨.jit, [7], 20, 2⟩]).map
      (fun r => (r.1.mevCount, r.1.cumulativeMevPriorityFeePaid, r.1.totalBribe,
        r.2.length, (r.2.map (·.priorityFeePaid)).sum, (r.2.map (·.bribe)).sum))
      = some (2, 30, 3, 1, 30, 3)
    ∧ (2 : Nat) ≠ 1 := by
  constructor
  · decide
  · decide

/-- Claim C2 (amended): the `MevBlock` header is built from the raw
inspector output before any compose or subsumption step: the reported MEV
count is the number of input bundles, and the cumulative priority fee and
total bribe are sums over all input bundles; whenever resolution
completes, the returned header is exactly this pre-resolution header. -/
theorem buildMevHeaderFromRawInput (pre : BlockPreprocessing)
    (data : List CBundle) :
    (buildMevHeader pre data).mevCount = data.length
    ∧ (buildMevHeader pre data).cumulativeMevPriorityFeePaid
        = (data.map (·.priorityFeePaid)).sum
    ∧ (buildMevHeader pre data).totalBribe = (data.map (·.bribe)).sum
    ∧ ∀ (table : List MevFilterEntry) (result : MevBlock × List CBundle),
        onOrchestraResolution table pre data = some result →
        result.1 = buildMevHeader pre data := by
  refine ⟨rfl, rfl, rfl, ?_⟩
  intro table result h
  simp only [onOrchestraResolution] at h
  cases hres : resolveFilters table (groupByMevType data) with
  | none => rw [hres] at h; exact absurd h (by simp)
  | some m => rw [hres] at h; simp at h; rw [← h]

/-- Witness for the amended claim C2 at a concrete resolved block. -/
theorem buildMevHeaderFromRawInputWitness :
    (buildMevHeader (preProcess [⟨21000, 10⟩, ⟨50000, 20⟩] 5 ⟨1, 2, 0, 3, 4⟩)
        [⟨.sandwich, [7], 10, 1⟩, ⟨.jit, [7], 20, 2⟩]).mevCount = 2
    ∧ ∀ result, onOrchestraResolution (mevFilter composeJoin)
          (preProcess [⟨21000, 10⟩, ⟨50000, 20⟩] 5 ⟨1, 2, 0, 3, 4⟩)
          [⟨.sandwich, [7], 10, 1⟩, ⟨.jit, [7], 20, 2⟩] = some result →
        result.1 = buildMevHeader (preProcess [⟨21000, 10⟩, ⟨50000, 20⟩] 5 ⟨1, 2, 0, 3, 4⟩)
          [⟨.sandwich, [7], 10, 1⟩, ⟨.jit, [7], 20, 2⟩] :=
  ⟨(buildMevHeaderFromRawInput
      (preProcess [⟨21000, 10⟩, ⟨50000, 20⟩] 5 ⟨1, 2, 0, 3, 4⟩)
      [⟨.sandwich, [7], 10, 1⟩, ⟨.jit, [7], 20, 2⟩]).1,
   fun result h => (buildMevHeaderFromRawInput
      (preProcess [⟨21000, 10⟩, ⟨50000, 20⟩] 5 ⟨1, 2, 0, 3, 4⟩)
      [⟨.sandwich, [7], 10, 1⟩, ⟨.jit, [7], 20, 2⟩]).2.2.2 (mevFilter composeJoin) result h⟩

/-- Claim C10 (confirmed): the bribe term added into the builder's
native-unit profit is the literal constant `0`, so
`builder_eth_profit` equals the cumulative gas paid exactly and the USD
builder profit is the gas-paid value scaled by the ETH price — bundle
bribes contribute to neither, even though the separate `total_bribe`
field sums them. -/
theorem builderProfitIgnoresBribes (pre : BlockPreprocessing)
    (data : List CBundle) :
    (buildMevHeader pre data).builderEthProfit = pre.cumulativeGasPaid
    ∧ (buildMevHeader pre data).builderFinalizedProfitUsd
        = toScaledRational pre.cumulativeGasPaid * pre.metaData.ethPrices
    ∧ (buildMevHeader pre data).totalBribe = (data.map (·.bribe)).sum := by
  refine ⟨Nat.zero_add _, ?_, rfl⟩
  show toScaledRational (0 + pre.cumulativeGasPaid) * pre.metaData.ethPrices = _
  rw [Nat.zero_add]

/-- Claim C3 (code bug): at a single Sandwich head bundle with hashes
`[1, 2]` over a Backrun group `[{hashes [1]}, {hashes [2]}]`, both
dependency bundles match by partial overlap, but the source's
partial-overlap branch schedules removal indices `i + adjustment`
(`0 + 0 = 0` and `1 + 1 = 2`), so the second `Vec::remove(2)` is applied
to the 1-element remainder and panics — not every removal index stays
valid. -/
theorem replaceDepFilterOverlapIndexPanic :
    (replaceDepFilter .sandwich [.backrun, .cexDex]
        (groupByMevType
          [⟨.sandwich, [1, 2], 0, 0⟩, ⟨.backrun, [1], 0, 0⟩,
           ⟨.backrun, [2], 0, 0⟩])).isNone = true := by
  decide

/-- A pre-processing value and a bundle used by concrete composer runs. -/
def preEx : BlockPreprocessing := preProcess [⟨21000, 10⟩] 5 ⟨1, 2, 0, 3, 4⟩

/-- Claim C7 (corrected): a compose entry with a 1-element dependency
list does not abort at table construction: the table value is an ordinary
list (its entry is observable), the header-building step of block
resolution still runs, and the abort is the `panic!` raised inside
`compose_dep_filter` while the dependency table is being resolved
(modelled by `none`), i.e. at runtime during block processing rather
than at initialization. -/
theorem composeArityCheckedAtResolutionCounterexample :
    ((mevFilter composeJoin).take 1 ++
        [(MevType.jitSandwich, some composeJoin, [MevType.sandwich])]).length = 2
    ∧ (buildMevHeader preEx [⟨.sandwich, [7], 10, 1⟩]).mevCount = 1
    ∧ (onOrchestraResolution
        ((mevFilter composeJoin).take 1 ++
          [(MevType.jitSandwich, some composeJoin, [MevType.sandwich])])
        preEx [⟨.sandwich, [7], 10, 1⟩]).isNone = true
    ∧ (composeDepFilter .jitSandwich [.sandwich] composeJoin
        (groupByMevType [⟨.sandwich, [7], 10, 1⟩])).isNone = true := by
  refine ⟨rfl, rfl, by decide, by decide⟩

/-- Claim C7 (amended): the arity invariant is enforced by a
non-recoverable panic inside `compose_dep_filter`, raised when the
malformed entry is first processed during dependency resolution (per
block, at runtime), not at table construction; every compose-carrying
entry of the actual `MEV_FILTER` table does have exactly 2 dependency
types, so the panic is unreachable with the shipped table. -/
theorem composeDepFilterArity (parent : MevType) (deps : List MevType)
    (compose : CBundle → CBundle → CBundle) (m : SortedMev)
    (h : deps.length ≠ 2) :
    composeDepFilter parent deps compose m = none
    ∧ ∀ (f : CBundle → CBundle → CBundle), ∀ entry ∈ mevFilter f,
        entry.2.1.isSome = true → entry.2.2.length = 2 := by
  constructor
  · match deps, h with
    | [], _ => rfl
    | [_], _ => rfl
    | [_, _], h => exact absurd rfl h
    | _ :: _ :: _ :: _, _ => rfl
  · intro f entry hmem hsome
    simp only [mevFilter, List.mem_cons, List.mem_singleton] at hmem
    rcases hmem with rfl | rfl | hmem
    · simp at hsome
    · rfl
    · simp at hmem

/-- Witness for the amended claim C7: arity 1 makes `compose_dep_filter`
panic at resolution. -/
theorem composeDepFilterArityWitness :
    ([MevType.sandwich] : List MevType).length ≠ 2
    ∧ composeDepFilter .jitSandwich [.sandwich] composeJoin (fun _ => []) = none :=
  ⟨by decide,
   (composeDepFilterArity .jitSandwich [.sandwich] composeJoin (fun _ => [])
      (by decide)).1⟩

/-- Lemma: `findFirstMatch` finds nothing when no bundle of the group matches. -/
theorem findFirstMatchNone (addrs : List TxHash) (l : List CBundle)
    (h : ∀ c ∈ l, matchHashes addrs c = false) :
    findFirstMatch addrs l = none := by
  induction l with
  | nil => rfl
  | cons x rest ih =>
    rw [findFirstMatch, if_neg (by simp [h x (List.mem_cons_self x rest)]),
      ih fun c hc => h c (List.mem_cons_of_mem x hc)]
    rfl

/-- Lemma: `findFirstMatch` returns the first matching position: if position `i`
holds a matching bundle and every earlier position does not match, the
result is `(i, l.getD i default)`. -/
theorem findFirstMatchSome (addrs : List TxHash) (l : List CBundle)
    (i : Nat) (c : CBundle) (hi : i < l.length) (hc : l.getD i default = c)
    (hm : matchHashes addrs c = true)
    (hfirst : ∀ j, j < i → matchHashes addrs (l.getD j default) = false) :
    findFirstMatch addrs l = some (i, c) := by
  induction l generalizing i with
  | nil => exact absurd hi (by simp)
  | cons x rest ih =>
    cases i with
    | zero =>
      have hx : x = c := by simpa using hc
      rw [findFirstMatch, if_pos (by simp [hx, hm])]
      rw [hx]
    | succ k =>
      have hx : matchHashes addrs x = false := by
        simpa using hfirst 0 (Nat.succ_pos k)
      rw [findFirstMatch, if_neg (by simp [hx])]
      rw [ih k (by simpa using hi) (by simpa using hc)
        (fun j hj => by simpa using hfirst (j + 1) (by omega))]
      rfl

/-- Claim C4 (confirmed): with a 2-element dependency list,
`compose_dep_filter` folds the pairing step over all bundles of
`dependency_types[0]`, starting from the grouping with that group taken
out; for each such bundle, if no bundle of the current
`dependency_types[1]` group matches (hash lists equal or non-emptily
intersecting) it is pushed back standalone, and if the first match sits
at position `i`, that bundle alone is removed from the
`dependency_types[1]` group and exactly the one composed bundle is pushed
onto the entry's `mev_type` group. -/
theorem composeDepFilterPairing (parent t0 t1 : MevType)
    (compose : CBundle → CBundle → CBundle) (m : SortedMev) :
    composeDepFilter parent [t0, t1] compose m
        = some ((m t0).foldl (composeStep parent t0 t1 compose) (setGroup m t0 []))
    ∧ ∀ (s : SortedMev) (b : CBundle),
        ((∀ c ∈ s t1, matchHashes b.txHashes c = false) →
          composeStep parent t0 t1 compose s b = setGroup s t0 (s t0 ++ [b]))
        ∧ ∀ (i : Nat) (c : CBundle), i < (s t1).length →
            (s t1).getD i default = c →
            matchHashes b.txHashes c = true →
            (∀ j, j < i → matchHashes b.txHashes ((s t1).getD j default) = false) →
            composeStep parent t0 t1 compose s b =
              setGroup (setGroup s t1 ((s t1).eraseIdx i)) parent
                ((setGroup s t1 ((s t1).eraseIdx i)) parent ++ [compose b c]) := by
  refine ⟨rfl, fun s b => ⟨?_, ?_⟩⟩
  · intro hnone
    show (match findFirstMatch b.txHashes (s t1) with
          | some (index, c) =>
            setGroup (setGroup s t1 ((s t1).eraseIdx index)) parent
              ((setGroup s t1 ((s t1).eraseIdx index)) parent ++ [compose b c])
          | none => setGroup s t0 (s t0 ++ [b])) = _
    rw [findFirstMatchNone b.txHashes (s t1) hnone]
  · intro i c hi hc hm hfirst
    show (match findFirstMatch b.txHashes (s t1) with
          | some (index, c) =>
            setGroup (setGroup s t1 ((s t1).eraseIdx index)) parent
              ((setGroup s t1 ((s t1).eraseIdx index)) parent ++ [compose b c])
          | none => setGroup s t0 (s t0 ++ [b])) = _
    rw [findFirstMatchSome b.txHashes (s t1) i c hi hc hm hfirst]

/-- Concrete bundles and grouping for composer witnesses. -/
def sbEx : CBundle := ⟨.sandwich, [7], 10, 1⟩

def jbEx : CBundle := ⟨.jit, [7], 20, 2⟩

def mEx : SortedMev := groupByMevType [sbEx, jbEx]

/-- Witness for claim C4: the sandwich bundle pairs with the jit bundle
at position 0 of the jit group and the composed jit-sandwich is inserted. -/
theorem composeDepFilterPairingWitness :
    0 < (mEx .jit).length
    ∧ (mEx .jit).getD 0 default = jbEx
    ∧ matchHashes sbEx.txHashes jbEx = true
    ∧ composeStep .jitSandwich .sandwich .jit composeJoin mEx sbEx =
        setGroup (setGroup mEx .jit ((mEx .jit).eraseIdx 0)) .jitSandwich
          ((setGroup mEx .jit ((mEx .jit).eraseIdx 0)) .jitSandwich
            ++ [composeJoin sbEx jbEx]) :=
  ⟨by decide, by decide, by decide,
   ((composeDepFilterPairing .jitSandwich .sandwich .jit composeJoin mEx).2 mEx sbEx).2
      0 jbEx (by decide) (by decide) (by decide)
      (fun j hj => absurd hj (Nat.not_lt_zero j))⟩

/-- A composer whose execution future has been taken (or never started)
answers every poll with `Pending`, leaving the state unchanged and
emitting nothing. -/
theorem runComposerIdle {α β : Type} (resolve : α → β) (s : ComposerPollState)
    (polls : List (InnerPoll α)) (h : s.hasExecution = false) :
    runComposer resolve s polls = (s, polls.map fun _ => none) := by
  induction polls with
  | nil => rfl
  | cons p ps ih =>
    have hp : pollComposer resolve s p = (s, none) := by
      simp [pollComposer, h]
    simp [runComposer, hp, ih]

/-- Along any poll trace, the composer emits at most one `Ready` result,
and it is finished afterwards exactly when it was already finished or a
result was emitted. -/
theorem runComposerCount {α β : Type} (resolve : α → β)
    (polls : List (InnerPoll α)) : ∀ s : ComposerPollState,
    ((runComposer resolve s polls).2.countP Option.isSome) ≤ 1
    ∧ (runComposer resolve s polls).1.isFinished
        = (s.isFinished || (runComposer resolve s polls).2.any Option.isSome) := by
  induction polls with
  | nil => intro s; simp [runComposer]
  | cons p ps ih =>
    intro s
    by_cases h : s.hasExecution = true
    · cases p with
      | pending =>
        have hp : pollComposer resolve s .pending = (s, none) := by
          simp [pollComposer, h]
        have := ih s
        simp only [runComposer, hp] at *
        constructor
        · simpa using this.1
        · simpa using this.2
      | ready d =>
        have hp : pollComposer resolve s (.ready d)
            = (⟨false, true⟩, some (resolve d)) := by
          simp [pollComposer, h]
        have hidle := runComposerIdle resolve ⟨false, true⟩ ps rfl
        simp only [runComposer, hp, hidle]
        constructor
        · simp [List.countP_eq_zero]
        · simp
    · have hfalse : s.hasExecution = false := by simpa using h
      have hidle := runComposerIdle resolve s ps hfalse
      have hp : pollComposer resolve s p = (s, none) := by
        simp [pollComposer, hfalse]
      simp only [runComposer, hp, hidle]
      constructor
      · have hz : List.countP Option.isSome
            (List.replicate ps.length (none : Option β)) = 0 := by
          rw [List.countP_eq_zero]
          intro a ha
          rw [List.eq_of_mem_replicate ha]
          simp
        simp [hz]
      · have hz : (List.replicate ps.length (none : Option β)).any Option.isSome
            = false := by
          rw [List.any_eq_false]
          intro a ha
          rw [List.eq_of_mem_replicate ha]
          simp
        simp [hz]

/-- Claim C9 (confirmed): the composer future is single-shot. Over any
trace of inner-future poll outcomes: at most one poll yields a result;
the finished flag afterwards holds exactly when it already held or a
result was emitted (so `Finished` is entered at the unique emitting poll
and never left); while the inspectors are still in flight a `Pending`
poll is a pure observation (state unchanged, nothing emitted); and once
the execution future is gone every further poll is `Pending`, so
completion is never reported a second time. -/
theorem composerSingleShot {α β : Type} (resolve : α → β)
    (s : ComposerPollState) (polls : List (InnerPoll α)) :
    ((runComposer resolve s polls).2.countP Option.isSome) ≤ 1
    ∧ (runComposer resolve s polls).1.isFinished
        = (s.isFinished || (runComposer resolve s polls).2.any Option.isSome)
    ∧ (s.hasExecution = true → pollComposer resolve s .pending = (s, none))
    ∧ (s.hasExecution = false →
        runComposer resolve s polls = (s, polls.map fun _ => none)) :=
  ⟨(runComposerCount resolve polls s).1,
   (runComposerCount resolve polls s).2,
   fun h => by simp [pollComposer, h],
   fun h => runComposerIdle resolve s polls h⟩

/-- Witness for claim C9: a started composer polled with
`pending, ready 5, pending` emits exactly one result, ends finished, and
its pre-completion pending poll is a no-op. -/
theorem composerSingleShotWitness :
    ((runComposer (fun n : Nat => n) ⟨true, false⟩
        [.pending, .ready 5, .pending]).2.countP Option.isSome) ≤ 1
    ∧ (runComposer (fun n : Nat => n) ⟨true, false⟩
        [.pending, .ready 5, .pending]).1.isFinished
        = ((false : Bool) || (runComposer (fun n : Nat => n) ⟨true, false⟩
            [.pending, .ready 5, .pending]).2.any Option.isSome)
    ∧ pollComposer (fun n : Nat => n) ⟨true, false⟩ .pending
        = (⟨true, false⟩, none) :=
  ⟨(composerSingleShot (fun n : Nat => n) ⟨true, false⟩
      [.pending, .ready 5, .pending]).1,
   (composerSingleShot (fun n : Nat => n) ⟨true, false⟩
      [.pending, .ready 5, .pending]).2.1,
   (composerSingleShot (fun n : Nat => n) ⟨true, false⟩
      [.pending, .ready 5, .pending]).2.2.1 rfl⟩
